import Mathlib

/-!
Shallow embedding of `holopy/fitting/fit_series.py`.

The module is orchestration glue around external collaborators
(`normalize`, `subimage`, `load`, `save`, `fit`, `h5py`, the `Model`).
Externals are embedded as explicit parameters (pure oracles) or as
abstract effect records; the control flow, arithmetic and error
behaviour of the module's own code is translated faithfully,
including its slips (the undefined `outf` in the restart branch, the
misspelled `data_optis`, and the missing `return` in
`SeriesData.__getitem__`).

Python exceptions are embedded as an explicit error type; a Python
function that can raise returns `Except PyExc _`.
-/

set_option autoImplicit false

namespace FitSeries

/-- Python exception classes that arise in this module's control flow. -/
inductive PyExc where
  | indexError
  | keyError
  | nameError
  | ioError
  | attributeError
  | typeError
  | valueError
  deriving DecidableEq, Repr

/-- Optics metadata: opaque to this module, carried around unchanged. -/
abbrev Optics := Nat

/-- An image (2-d array flattened to a list of pixel values).
Pixel arithmetic is embedded over `ℚ` (numpy float arithmetic, with
rounding abstracted away; the claims are about which expression is
computed, not about rounding). -/
abbrev Img := List ℚ

/-- Embedding of `np.zeros_like(holo)`: an all-zero array of the same shape. -/
def zeros_like (holo : Img) : Img :=
  List.replicate holo.length 0

/-- Elementwise subtraction of two numpy arrays of equal shape. -/
def arrSub (a b : Img) : Img :=
  List.zipWith (fun x y => x - y) a b

/-- Elementwise division of two numpy arrays of equal shape. -/
def arrDiv (a b : Img) : Img :=
  List.zipWith (fun x y => x / y) a b

/-- The default preprocessing function `div_normalize(holo, bg, df, model)`.
`normalize` is an external transform from `holopy.core.process`, passed
in as an oracle.  The `model` argument is taken and ignored, as in the
source.  Mirrors lines 40-47 of `fit_series.py`. -/
def div_normalize (normalize : Img → Img) (holo : Img)
    (bg df : Option Img) (_model : Unit) : Img :=
  let df' := match df with
    | none => zeros_like holo
    | some d => d
  match bg with
  | some b => normalize (arrDiv (arrSub holo df') (arrSub b df'))
  | none => normalize holo

/-- A model parameter: a name and a current guess value. -/
structure Param where
  name : String
  guess : ℚ
  deriving DecidableEq, Repr

/-- The slice of a `Model` that `update_all` touches: its ordered
parameter list (`model.parameters`). -/
abbrev ModelParams := List Param

/-- The slice of a `FitResult` that `update_all` reads: the mapping
`fitted_result.parameters` from parameter name to fitted value
(a Python dict, embedded as an association list). -/
abbrev ResultParams := List (String × ℚ)

/-- Dict lookup `fitted_result.parameters[name]`: `none` embeds the
`KeyError` case. -/
def dictLookup (res : ResultParams) (n : String) : Option ℚ :=
  (res.find? (fun p => p.1 == n)).map (fun p => p.2)

/-- The default updating function `update_all(model, fitted_result)`
(lines 65-69).  The Python loop mutates `p.guess` in place, one
parameter at a time, and a missing name raises `KeyError` mid-loop;
the embedding returns `.error s` where `s` is the parameter list as it
stands at the moment the exception is raised (already-visited
parameters overwritten, the missing one and all later ones untouched),
and `.ok s` with the fully updated list on success. -/
def update_all (ps : ModelParams) (res : ResultParams) :
    Except ModelParams ModelParams :=
  match ps with
  | [] => .ok []
  | p :: rest =>
    match dictLookup res p.name with
    | none => .error (p :: rest)
    | some v =>
      match update_all rest res with
      | .ok rest' => .ok ({ p with guess := v } :: rest')
      | .error rest' => .error ({ p with guess := v } :: rest')

/-! ### `scatterer_centered_subimage` (lines 49-62): window geometry -/

/-- A 2-d vector of rational coordinates (pixel positions / sizes). -/
abbrev Vec2 := ℚ × ℚ

/-- The 2-d geometry of a frame: `holo.shape[:2]` and `holo.spacing`. -/
structure Frame2 where
  shape : Vec2
  spacing : Vec2
  deriving DecidableEq, Repr

/-- Modelled from the spec: `holopy.core.subimage(arr, center, size)`
(external, not under src/) extracts a window of the given size centered
at `center` (pixel units) and raises `IndexError` when the window does
not lie fully within the frame bounds.  Only the window geometry is
modelled; the pixel content (the `holo/bg` division) and the external
`normalize` contrast transform do not affect the geometry and are
elided. -/
def subimage (shape center size : Vec2) : Except PyExc (Vec2 × Vec2) :=
  if 0 ≤ center.1 - size.1 / 2 ∧ 0 ≤ center.2 - size.2 / 2 ∧
      center.1 + size.1 / 2 ≤ shape.1 ∧ center.2 + size.2 / 2 ≤ shape.2 then
    .ok (center, size)
  else
    .error .indexError

/-- The preprocessing closure built by
`scatterer_centered_subimage(size, recenter_at_edge)` (lines 49-62),
applied to a frame whose scatterer guess center (first two physical
coordinates, `model.scatterer.guess.center[:2]`) is `scattererCenter`.
The `try` branch converts the physical center to pixel units by
dividing by `holo.spacing` (line 51); the `except IndexError` branch
re-reads the center WITHOUT dividing by spacing (line 57, as in the
source), clamps it with the two `np.clip(_, -np.inf, 0)` adjustments
(lines 58-59, embedded as `min _ 0`), and retries `subimage`. -/
def scatterer_centered_subimage (size : Vec2) (recenter_at_edge : Bool)
    (holo : Frame2) (scattererCenter : Vec2) : Except PyExc (Vec2 × Vec2) :=
  let center : Vec2 :=
    (scattererCenter.1 / holo.spacing.1, scattererCenter.2 / holo.spacing.2)
  match subimage holo.shape center size with
  | .ok w => .ok w
  | .error .indexError =>
    if recenter_at_edge then
      let nc : Vec2 := scattererCenter
      let nc1 : Vec2 :=
        (nc.1 - min (nc.1 - size.1 / 2) 0, nc.2 - min (nc.2 - size.2 / 2) 0)
      let nc2 : Vec2 :=
        (nc1.1 + min (holo.shape.1 - (nc1.1 + size.1 / 2)) 0,
         nc1.2 + min (holo.shape.2 - (nc1.2 + size.2 / 2)) 0)
      subimage holo.shape nc2 size
    else
      .error .indexError
  | .error e => .error e

/-- The recentered window center as the spec describes it: the physical
scatterer center converted to pixel units via the frame spacing, then
shifted inward by exactly the overshoot amount on each axis
independently, so a window of the requested size lies fully inside the
frame.  (Spec-side definition, for comparison with the source's
recentering, which omits the unit conversion.) -/
def specRecenteredCenter (size : Vec2) (holo : Frame2)
    (scattererCenter : Vec2) : Vec2 :=
  let c : Vec2 :=
    (scattererCenter.1 / holo.spacing.1, scattererCenter.2 / holo.spacing.2)
  let c1 : Vec2 :=
    (c.1 - min (c.1 - size.1 / 2) 0, c.2 - min (c.2 - size.2 / 2) 0)
  (c1.1 + min (holo.shape.1 - (c1.1 + size.1 / 2)) 0,
   c1.2 + min (holo.shape.2 - (c1.2 + size.2 / 2)) 0)

/-! ### Series data accessors (lines 71-93) -/

/-- The argument record of one call to the external `holopy.core.io.load`
routine: path plus the spacing and optics metadata passed along. -/
structure LoadCall where
  path : String
  spacing : ℚ
  optics : Optics
  deriving DecidableEq, Repr

/-- A fully-specified image object `Image(data, spacing, optics)`. -/
structure ImageVal where
  data : Img
  spacing : ℚ
  optics : Optics
  deriving DecidableEq, Repr

/-- An external effect performed by this module: calls into the
external loaders/savers/fitter and filesystem operations.  The
embedding records these so that theorems can speak about which
externals a code path invokes. -/
inductive Effect where
  | loadImg (c : LoadCall)
  | h5Open
  | mkdir (dir : String)
  | fitCall (frameIndex : Nat)
  | saveResult (path : String)
  | loadCheckpoint (path : String)
  deriving DecidableEq, Repr

/-- Does the effect invoke the external fit routine? -/
def Effect.isFitCall : Effect → Bool
  | .fitCall _ => true
  | _ => false

/-- Does the effect persist a result file? -/
def Effect.isSaveResult : Effect → Bool
  | .saveResult _ => true
  | _ => false

/-- Does the effect create an output directory? -/
def Effect.isMkdir : Effect → Bool
  | .mkdir _ => true
  | _ => false

/-- Does the effect read a persisted checkpoint? -/
def Effect.isLoadCheckpoint : Effect → Bool
  | .loadCheckpoint _ => true
  | _ => false

/-- Structure `SeriesData` (lines 71-78): sequence variant, a list of per-frame
sources plus shared spacing/optics metadata. -/
structure SeriesData where
  filenames : List String
  spacing : ℚ
  optics : Optics
  deriving DecidableEq, Repr

/-- Method `SeriesData.__getitem__(k)` (lines 77-78): evaluates
`self.filenames[k]` (Python list indexing, raising `IndexError` past
the end), calls the external `load` on it with the stored spacing and
optics — and, the body having no `return` statement, yields Python
`None` (embedded `none`) rather than the loaded image.  The value is
paired with the list of external load calls the access performs. -/
def SeriesData.getitem (sd : SeriesData) (k : Nat) :
    Except PyExc (Option ImageVal × List LoadCall) :=
  match sd.filenames[k]? with
  | none => .error .indexError
  | some fn => .ok (none, [⟨fn, sd.spacing, sd.optics⟩])

/-- Structure `SeriesH5Data` (lines 80-87): archive variant; `self.data` is the
opened h5py archive, embedded as its key/value entries. -/
structure SeriesH5Data where
  entries : List (String × Img)
  spacing : ℚ
  optics : Optics
  deriving DecidableEq, Repr

/-- Method `SeriesH5Data.__getitem__(k)` (lines 86-87): looks up the
stringified integer key `str(k)` in the archive (h5py raises `KeyError`
when the key is absent) and wraps the stored array in an `Image`
carrying the accessor's spacing and optics. -/
def SeriesH5Data.getitem (h : SeriesH5Data) (k : Nat) :
    Except PyExc ImageVal :=
  match (h.entries.find? (fun p => p.1 == toString k)).map (fun p => p.2) with
  | none => .error .keyError
  | some v => .ok ⟨v, h.spacing, h.optics⟩

/-- The two accessor variants `_load_series_data` can produce. -/
inductive SeriesAccessor where
  | h5 (d : SeriesH5Data)
  | seq (d : SeriesData)
  deriving DecidableEq, Repr

/-- Function `_load_series_data(names, spacing, optics)` (lines 89-93).
Constructing `SeriesH5Data` calls the external `h5py.File(names)`,
whose outcome is the oracle `h5attempt` (`.ok` the opened archive, or
`.error` the exception class it raised).  The source catches exactly
`(IOError, AttributeError)` and falls back to the sequence variant
built from the same arguments (`fallback`); any other exception
propagates. -/
def load_series_data (h5attempt : Except PyExc SeriesH5Data)
    (fallback : SeriesData) : Except PyExc SeriesAccessor :=
  match h5attempt with
  | .ok d => .ok (.h5 d)
  | .error e =>
    if e = .ioError ∨ e = .attributeError then
      .ok (.seq fallback)
    else
      .error e

/-! ### The `__getitem__`-based iteration protocol -/

/-- Python's `for ... in enumerate(obj)` over an object that defines
`__getitem__` but not `__iter__`/`__len__`: the interpreter calls
`obj[0]`, `obj[1]`, ... until a call raises `IndexError`, which ends
the loop normally; any other exception propagates out of the loop.
`fuel` bounds the recursion; `none` means the fuel ran out before the
iteration ended. -/
def iterGetitem {A : Type} (getitem : Nat → Except PyExc A) :
    Nat → Nat → List A → Option (Except PyExc (List A))
  | 0, _, _ => none
  | fuel + 1, k, acc =>
    match getitem k with
    | .ok a => iterGetitem getitem fuel (k + 1) (acc ++ [a])
    | .error .indexError => some (.ok acc)
    | .error e => some (.error e)

/-! ### `fit_series` (lines 95-167) -/

/-- Resolution of the `bg` argument of `fit_series` (lines 149-150): a
background given as a path (`basestring`) is to be loaded — but
evaluating the call's arguments raises `NameError`, because the source
writes `optics=data_optis` and no name `data_optis` is defined (the
intended name is `data_optics`).  A background given as an image, or
absent, passes through. -/
def resolve_bg (bg : Option (String ⊕ Img)) (_data_spacing : ℚ)
    (_data_optics : Optics) : Except PyExc (Option Img) :=
  match bg with
  | none => .ok none
  | some (.inr v) => .ok (some v)
  | some (.inl _) => .error .nameError

/-- Resolution of the `df` argument of `fit_series` (lines 151-152): a
darkfield given as a path is loaded via the external `load` with the
caller-supplied spacing and optics; an image or `None` passes
through. -/
def resolve_df (loadFn : LoadCall → Img) (df : Option (String ⊕ Img))
    (data_spacing : ℚ) (data_optics : Optics) : Option Img :=
  match df with
  | none => none
  | some (.inr v) => some v
  | some (.inl p) => some (loadFn ⟨p, data_spacing, data_optics⟩)

/-- The persistence step of one loop iteration (lines 162-163): when an
output directory is configured, the freshly fit result is saved to
`<dir>/fit_result_<i>.yaml`; otherwise nothing is persisted. -/
def saveEffects (output_directory : Option String) (i : Nat) : List Effect :=
  match output_directory with
  | some d => [.saveResult (d ++ "/fit_result_" ++ toString i ++ ".yaml")]
  | none => []

/-- Lines 146-147: when an output directory is configured, `mkdir_p` is
called on it before the loop. -/
def initEffects (output_directory : Option String) : List Effect :=
  match output_directory with
  | some d => [.mkdir d]
  | none => []

/-- The per-frame loop of `fit_series` (lines 154-166).  For each frame:
the guard `restart and os.path.exists(outf)` short-circuits when
`restart` is false; when `restart` is true, evaluating
`os.path.exists(outf)` raises `NameError`, because no name `outf` is
defined anywhere in the module.  The else branch preprocesses the
frame, invokes the external fit (oracle `fitFn`, recorded as a
`fitCall` effect), appends the result to `acc`, persists it when an
output directory is configured (a `saveResult` effect), and then the
update policy advances the model.  Any error from preprocessing,
fitting or updating propagates, halting the series. -/
def fit_series_loop {M I R F : Type}
    (preprocessFn : F → M → Except PyExc I)
    (fitFn : M → I → Except PyExc R)
    (updateFn : M → R → Except PyExc M)
    (restart : Bool) (output_directory : Option String) :
    List F → Nat → M → List R → List Effect →
      Except PyExc (List R × M × List Effect)
  | [], _, m, acc, effs => .ok (acc, m, effs)
  | f :: rest, i, m, acc, effs =>
    if restart then
      .error .nameError
    else
      match preprocessFn f m with
      | .error e => .error e
      | .ok img =>
        match fitFn m img with
        | .error e => .error e
        | .ok r =>
          match updateFn m r with
          | .error e => .error e
          | .ok m2 =>
            fit_series_loop preprocessFn fitFn updateFn restart
              output_directory rest (i + 1) m2 (acc ++ [r])
              (effs ++ [.fitCall i] ++ saveEffects output_directory i)

/-- Driver `fit_series` (lines 95-167).  The external collaborators are
oracles: `loadFn` for `holopy.core.io.load`, `preprocessFn` for the
injected preprocessing policy, `fitFn` for `holopy.fitting.fit`,
`updateFn` for the injected update policy.  The iteration over the
series accessor is embedded separately (`iterGetitem`); here `frames`
is the sequence of frames the accessor yields, in order.  The driver
creates the output directory when one is configured (lines 146-147),
resolves `bg`/`df` from path-or-object (lines 149-152, with the
`data_optis` slip in the `bg` branch), and runs the loop. -/
def fit_series {M I R F : Type}
    (loadFn : LoadCall → Img)
    (preprocessFn : F → Option Img → Option Img → M → Except PyExc I)
    (fitFn : M → I → Except PyExc R)
    (updateFn : M → R → Except PyExc M)
    (model : M) (frames : List F)
    (data_spacing : ℚ) (data_optics : Optics)
    (bg df : Option (String ⊕ Img))
    (output_directory : Option String) (restart : Bool) :
    Except PyExc (List R × M × List Effect) :=
  match resolve_bg bg data_spacing data_optics with
  | .error e => .error e
  | .ok bgI =>
    let dfI := resolve_df loadFn df data_spacing data_optics
    fit_series_loop (fun f m => preprocessFn f bgI dfI m) fitFn updateFn
      restart output_directory frames 0 model []
      (initEffects output_directory)

/-! ### `series_preprocess_data` and `series_guess` (lines 169-255) -/

/-- Helper `series_preprocess_data` (lines 213-255): resolves a background
given as a path (line 252-253, spelled correctly here, so the load
succeeds), leaves `df` unresolved (there is no corresponding branch for
it), obtains frame 0 through the series accessor
(`_load_series_data(data, ...)[0]`, lines 254), and runs the
preprocessing policy on it (line 255).  The pair returned is the
outcome together with the complete list of external effects the call
performs, on success and on failure alike. -/
def series_preprocess_data {M I : Type}
    (loadFn : LoadCall → Img)
    (preprocessFn : Option ImageVal → Option Img → Option (String ⊕ Img) →
      M → I)
    (h5attempt : Except PyExc SeriesH5Data) (fallback : SeriesData)
    (model : M) (data_spacing : ℚ) (data_optics : Optics)
    (bg df : Option (String ⊕ Img)) :
    Except PyExc I × List Effect :=
  let bgResolved : Option Img × List Effect :=
    match bg with
    | none => (none, [])
    | some (.inr v) => (some v, [])
    | some (.inl p) =>
      (some (loadFn ⟨p, data_spacing, data_optics⟩),
       [.loadImg ⟨p, data_spacing, data_optics⟩])
  let effs0 := bgResolved.2 ++ [Effect.h5Open]
  match load_series_data h5attempt fallback with
  | .error e => (.error e, effs0)
  | .ok (.h5 h) =>
    match h.getitem 0 with
    | .error e => (.error e, effs0)
    | .ok v => (.ok (preprocessFn (some v) bgResolved.1 df model), effs0)
  | .ok (.seq sd) =>
    match sd.getitem 0 with
    | .error e => (.error e, effs0)
    | .ok (v, calls) =>
      (.ok (preprocessFn v bgResolved.1 df model),
       effs0 ++ calls.map Effect.loadImg)

/-- Helper `series_guess` (lines 169-211): runs `series_preprocess_data` on
the same arguments, then asks the model for its predicted image
(`model.guess_holo(imagetofit)`, an external model capability, the
oracle `guessHolo`).  It performs exactly the effects of
`series_preprocess_data`. -/
def series_guess {M I G : Type}
    (loadFn : LoadCall → Img)
    (preprocessFn : Option ImageVal → Option Img → Option (String ⊕ Img) →
      M → I)
    (guessHolo : M → I → G)
    (h5attempt : Except PyExc SeriesH5Data) (fallback : SeriesData)
    (model : M) (data_spacing : ℚ) (data_optics : Optics)
    (bg df : Option (String ⊕ Img)) :
    Except PyExc G × List Effect :=
  let r := series_preprocess_data loadFn preprocessFn h5attempt fallback
    model data_spacing data_optics bg df
  (r.1.map (guessHolo model), r.2)

/-! ### Auxiliary definitions for the statements -/

/-- The parameter `p` after `update_all` has processed it: its guess
overwritten with the same-named value from the fit result (unchanged
when the name is absent — in that case `update_all` raises before or at
`p`). -/
def updatedParam (res : ResultParams) (p : Param) : Param :=
  match dictLookup res p.name with
  | some v => { p with guess := v }
  | none => p

/-- Is the effect one of the two external reads the inspection helpers
perform (an image load, or the archive-open probe)?  Everything else —
fitting, saving results, creating directories, reading checkpoints — is
excluded. -/
def Effect.isExternalRead : Effect → Bool
  | .loadImg _ => true
  | .h5Open => true
  | _ => false

/-- Concrete oracle standing in for `holopy.core.io.load`. -/
def oracleLoad : LoadCall → Img := fun _ => []

/-- Concrete preprocessing oracle over `ℕ` frames. -/
def oraclePre : Nat → Option Img → Option Img → Nat → Except PyExc Nat :=
  fun f _ _ _ => .ok f

/-- Concrete fit oracle over `ℕ` models/images. -/
def oracleFit : Nat → Nat → Except PyExc Nat :=
  fun m i => .ok (m + i)

/-- Concrete update oracle over `ℕ` models/results. -/
def oracleUpd : Nat → Nat → Except PyExc Nat :=
  fun _ r => .ok r

/-! ## Theorems -/

theorem arrSub_replicate_zero (a : Img) :
    ∀ n, a.length ≤ n → arrSub a (List.replicate n 0) = a := by
  induction a with
  | nil => intro n _; simp [arrSub]
  | cons x xs ih =>
    intro n hn
    cases n with
    | zero => simp at hn
    | succ n =>
      simp only [List.replicate, arrSub, List.zipWith_cons_cons, sub_zero]
      have := ih n (by simpa using hn)
      simpa [arrSub] using this

/-- C3: `div_normalize` returns `normalize((frame - darkfield) /
(background - darkfield))` when a background is given, substituting an
all-zero image shaped like the frame for an absent darkfield (so with
only a background it returns `normalize(frame / background)`), and
returns `normalize(frame)` when no background is given. -/
theorem div_normalize_correct (normalize : Img → Img) (holo bg df : Img)
    (d : Option Img) (hbg : bg.length = holo.length) :
    div_normalize normalize holo (some bg) (some df) () =
      normalize (arrDiv (arrSub holo df) (arrSub bg df))
    ∧ div_normalize normalize holo (some bg) none () =
      normalize (arrDiv holo bg)
    ∧ div_normalize normalize holo none d () = normalize holo := by
  refine ⟨rfl, ?_, rfl⟩
  show normalize
      (arrDiv (arrSub holo (zeros_like holo)) (arrSub bg (zeros_like holo))) =
    normalize (arrDiv holo bg)
  unfold zeros_like
  rw [arrSub_replicate_zero holo holo.length le_rfl,
    arrSub_replicate_zero bg holo.length (le_of_eq hbg)]

theorem div_normalize_correct_witness :
    div_normalize id [(4 : ℚ)] (some [2]) none () = id (arrDiv [(4 : ℚ)] [2]) :=
  (div_normalize_correct id [4] [2] [0] none rfl).2.1

/-- C4: `update_all` overwrites the guess of every parameter on the model
with the value of the same-named parameter in the fit result and returns
the model; it raises a lookup error if and only if the fit result lacks a
parameter the model has, and in that case the parameters visited before
the missing one have already been overwritten (the missing one and all
later ones are untouched). -/
theorem update_all_correct (ps : ModelParams) (res : ResultParams) :
    ((∃ qs, update_all ps res = .ok qs) ↔
      ∀ p ∈ ps, (dictLookup res p.name).isSome)
    ∧ (∀ qs, update_all ps res = .ok qs → qs = ps.map (updatedParam res))
    ∧ (∀ qs, update_all ps res = .error qs →
        ∃ ps₁ p₀ ps₂, ps = ps₁ ++ p₀ :: ps₂
          ∧ dictLookup res p₀.name = none
          ∧ (∀ p ∈ ps₁, (dictLookup res p.name).isSome)
          ∧ qs = ps₁.map (updatedParam res) ++ p₀ :: ps₂) := by
  induction ps with
  | nil =>
    refine ⟨iff_of_true ⟨[], rfl⟩ (by simp), ?_, ?_⟩
    · intro qs h
      simp only [update_all] at h
      cases h
      simp
    · intro qs h
      simp only [update_all] at h
      cases h
  | cons p rest ih =>
    obtain ⟨ih1, ih2, ih3⟩ := ih
    cases hl : dictLookup res p.name with
    | none =>
      refine ⟨?_, ?_, ?_⟩
      · constructor
        · rintro ⟨qs, hqs⟩
          simp only [update_all, hl] at hqs
          cases hqs
        · intro hall
          have := hall p (by simp)
          rw [hl] at this
          cases this
      · intro qs h
        simp only [update_all, hl] at h
        cases h
      · intro qs h
        simp only [update_all, hl] at h
        cases h
        exact ⟨[], p, rest, by simp, hl, by simp, by simp⟩
    | some v =>
      have hupd : updatedParam res p = { p with guess := v } := by
        simp [updatedParam, hl]
      cases hr : update_all rest res with
      | ok rest' =>
        refine ⟨?_, ?_, ?_⟩
        · constructor
          · intro _
            intro q hq
            rcases List.mem_cons.mp hq with hq | hq
            · subst hq; simp [hl]
            · exact ih1.mp ⟨rest', hr⟩ q hq
          · intro _
            exact ⟨{ p with guess := v } :: rest', by
              simp only [update_all, hl, hr]⟩
        · intro qs h
          simp only [update_all, hl, hr] at h
          cases h
          simp [hupd, ih2 rest' hr]
        · intro qs h
          simp only [update_all, hl, hr] at h
          cases h
      | error rest' =>
        refine ⟨?_, ?_, ?_⟩
        · constructor
          · rintro ⟨qs, hqs⟩
            simp only [update_all, hl, hr] at hqs
            cases hqs
          · intro hall
            have : ∀ q ∈ rest, (dictLookup res q.name).isSome := by
              intro q hq
              exact hall q (List.mem_cons_of_mem _ hq)
            obtain ⟨qs, hqs⟩ := ih1.mpr this
            rw [hqs] at hr
            cases hr
        · intro qs h
          simp only [update_all, hl, hr] at h
          cases h
        · intro qs h
          simp only [update_all, hl, hr] at h
          cases h
          obtain ⟨ps₁, p₀, ps₂, hsplit, hmiss, hpre, hstate⟩ := ih3 rest' hr
          refine ⟨p :: ps₁, p₀, ps₂, by simp [hsplit], hmiss, ?_, ?_⟩
          · intro q hq
            rcases List.mem_cons.mp hq with hq | hq
            · subst hq; simp [hl]
            · exact hpre q hq
          · simp [hupd, hstate]

theorem update_all_correct_witness :
    ([⟨"a", 5⟩] : ModelParams) =
      ([⟨"a", 0⟩] : ModelParams).map (updatedParam [("a", 5)]) :=
  (update_all_correct [⟨"a", 0⟩] [("a", 5)]).2.1 [⟨"a", 5⟩] rfl

/-- C5: evaluation of the recentering branch at a concrete input where
the frame spacing is 1/2 pixel.  The try-branch pixel center is
(8, 8) and its 6×6 window overruns the upper bound by 1, so the claim's
recentering (shift the pixel center inward by the overshoot) yields
(7, 7); but the source's `except` branch re-reads the center without
dividing by the spacing and clamps (4, 4), so the returned window is
centered at (4, 4), not at the spec's (7, 7). -/
theorem scatterer_centered_subimage_unit_slip :
    scatterer_centered_subimage ((6 : ℚ), (6 : ℚ)) true
        ⟨((10 : ℚ), (10 : ℚ)), ((1 / 2 : ℚ), (1 / 2 : ℚ))⟩
        ((4 : ℚ), (4 : ℚ)) =
      .ok (((4 : ℚ), (4 : ℚ)), ((6 : ℚ), (6 : ℚ)))
    ∧ specRecenteredCenter ((6 : ℚ), (6 : ℚ))
        ⟨((10 : ℚ), (10 : ℚ)), ((1 / 2 : ℚ), (1 / 2 : ℚ))⟩
        ((4 : ℚ), (4 : ℚ)) = ((7 : ℚ), (7 : ℚ))
    ∧ (((4 : ℚ), (4 : ℚ)) : Vec2) ≠ ((7 : ℚ), (7 : ℚ)) := by
  refine ⟨?_, ?_, by decide⟩
  · show scatterer_centered_subimage _ _ _ _ = _
    unfold scatterer_centered_subimage subimage
    norm_num
  · unfold specRecenteredCenter
    norm_num

/-- C6: every in-range indexed access on the sequence variant performs
exactly one fresh external load of the item at that index, with the
accessor's spacing and optics (no cache is consulted or filled) — but
the access yields Python `None` (the body of `__getitem__` has no
`return` statement), not the loaded image object. -/
theorem seriesData_getitem_loads_fresh_returns_none (sd : SeriesData)
    (k : Nat) (fn : String) (h : sd.filenames[k]? = some fn) :
    sd.getitem k = .ok (none, [⟨fn, sd.spacing, sd.optics⟩]) := by
  simp [SeriesData.getitem, h]

theorem seriesData_getitem_loads_fresh_returns_none_witness :
    SeriesData.getitem ⟨["f0"], 1, 0⟩ 0 = .ok (none, [⟨"f0", 1, 0⟩]) :=
  seriesData_getitem_loads_fresh_returns_none ⟨["f0"], 1, 0⟩ 0 "f0" rfl

/-- C7 counterexample: an archive-open failure of a class other than
`IOError`/`AttributeError` (here `ValueError`) is NOT silently turned
into the sequence fallback — it surfaces to the caller, refuting "any
failure of that attempt silently triggers fallback ... no error from
the archive attempt is surfaced". -/
theorem load_series_data_surfaces_other_errors :
    load_series_data (.error .valueError) ⟨[], 1, 0⟩ = .error .valueError
    ∧ (Except.error .valueError : Except PyExc SeriesAccessor) ≠
        .ok (.seq ⟨[], 1, 0⟩) := by
  exact ⟨rfl, by simp⟩

/-- C7 amended: resolving a data source first attempts the archive
variant; a failure raising `IOError` or `AttributeError` silently
triggers fallback to the sequence variant, while a failure of any other
exception class propagates to the caller. -/
theorem load_series_data_fallback_spec (fb : SeriesData) (e : PyExc)
    (d : SeriesH5Data) :
    load_series_data (.ok d) fb = .ok (.h5 d)
    ∧ ((e = .ioError ∨ e = .attributeError) →
        load_series_data (.error e) fb = .ok (.seq fb))
    ∧ (e ≠ .ioError → e ≠ .attributeError →
        load_series_data (.error e) fb = .error e) := by
  refine ⟨rfl, ?_, ?_⟩
  · intro he
    simp [load_series_data, he]
  · intro h1 h2
    simp [load_series_data, h1, h2]

theorem load_series_data_fallback_spec_witness :
    load_series_data (.error .ioError) ⟨[], 1, 0⟩ = .ok (.seq ⟨[], 1, 0⟩) :=
  (load_series_data_fallback_spec ⟨[], 1, 0⟩ .ioError ⟨[], 1, 0⟩).2.1
    (Or.inl rfl)

/-- C8: in `fit_series`, a darkfield given as a path is resolved before
the loop into the image loaded with the caller-supplied spacing and
optics; but a background given as a path makes the whole call abort
with `NameError` (the source passes `optics=data_optis`, an undefined
name), instead of loading the background image. -/
theorem fit_series_bg_path_raises_nameError {M I R F : Type}
    (loadFn : LoadCall → Img)
    (preprocessFn : F → Option Img → Option Img → M → Except PyExc I)
    (fitFn : M → I → Except PyExc R) (updateFn : M → R → Except PyExc M)
    (model : M) (frames : List F) (s : ℚ) (o : Optics) (p q : String)
    (df : Option (String ⊕ Img)) (outdir : Option String) (restart : Bool) :
    fit_series loadFn preprocessFn fitFn updateFn model frames s o
        (some (.inl p)) df outdir restart = .error .nameError
    ∧ resolve_df loadFn (some (.inl q)) s o = some (loadFn ⟨q, s, o⟩)
    ∧ resolve_bg (some (.inl p)) s o = .error .nameError := by
  exact ⟨rfl, rfl, rfl⟩

/-- C1: with `restart` enabled, the very first loop iteration of
`fit_series` evaluates `os.path.exists(outf)` and raises `NameError`
(`outf` is defined nowhere in the module): no checkpoint is consulted,
no persisted result is loaded, and no frame is fit. -/
theorem fit_series_restart_raises_nameError :
    fit_series oracleLoad oraclePre oracleFit oracleUpd (1 : Nat) [10]
      1 0 none none (some "out") true = .error .nameError := rfl

theorem saveEffects_filter_fitCall (outdir : Option String) (i : Nat) :
    (saveEffects outdir i).filter Effect.isFitCall = [] := by
  cases outdir <;> simp [saveEffects, Effect.isFitCall]

theorem saveEffects_filter_loadCheckpoint (outdir : Option String) (i : Nat) :
    (saveEffects outdir i).filter Effect.isLoadCheckpoint = [] := by
  cases outdir <;> simp [saveEffects, Effect.isLoadCheckpoint]

theorem initEffects_filter_fitCall (outdir : Option String) :
    (initEffects outdir).filter Effect.isFitCall = [] := by
  cases outdir <;> simp [initEffects, Effect.isFitCall]

theorem initEffects_filter_loadCheckpoint (outdir : Option String) :
    (initEffects outdir).filter Effect.isLoadCheckpoint = [] := by
  cases outdir <;> simp [initEffects, Effect.isLoadCheckpoint]

theorem range_succ_map_fitCall (n i : Nat) :
    (List.range (n + 1)).map (fun j => Effect.fitCall (i + j)) =
      Effect.fitCall i ::
        (List.range n).map (fun j => Effect.fitCall (i + 1 + j)) := by
  rw [List.range_succ_eq_map, List.map_cons, List.map_map]
  simp only [Nat.add_zero]
  congr 1
  refine List.map_congr_left ?_
  intro a _
  simp only [Function.comp_apply]
  congr 1
  omega

theorem fit_series_loop_ok_char {M I R F : Type}
    (P : F → M → Except PyExc I) (fitFn : M → I → Except PyExc R)
    (U : M → R → Except PyExc M) (restart : Bool) (outdir : Option String)
    (frames : List F) :
    ∀ (i : Nat) (m : M) (acc : List R) (effs : List Effect)
      (rs : List R) (m' : M) (effs' : List Effect),
      fit_series_loop P fitFn U restart outdir frames i m acc effs =
        .ok (rs, m', effs') →
      rs.length = acc.length + frames.length
      ∧ effs'.filter Effect.isFitCall =
          effs.filter Effect.isFitCall ++
            (List.range frames.length).map (fun j => Effect.fitCall (i + j))
      ∧ effs'.filter Effect.isLoadCheckpoint =
          effs.filter Effect.isLoadCheckpoint := by
  induction frames with
  | nil =>
    intro i m acc effs rs m' effs' h
    simp only [fit_series_loop] at h
    cases h
    simp
  | cons f rest ih =>
    intro i m acc effs rs m' effs' h
    cases restart with
    | true => simp [fit_series_loop] at h
    | false =>
      simp only [fit_series_loop, Bool.false_eq_true, if_false] at h
      cases hP : P f m with
      | error e => simp only [hP] at h; exact Except.noConfusion h
      | ok img =>
        cases hF : fitFn m img with
        | error e => simp only [hP, hF] at h; exact Except.noConfusion h
        | ok r =>
          cases hU : U m r with
          | error e => simp only [hP, hF, hU] at h; exact Except.noConfusion h
          | ok m2 =>
            simp only [hP, hF, hU] at h
            obtain ⟨h1, h2, h3⟩ := ih (i + 1) m2 (acc ++ [r]) _ rs m' effs' h
            refine ⟨?_, ?_, ?_⟩
            · simp only [List.length_append, List.length_cons,
                List.length_nil] at h1 ⊢
              omega
            · rw [h2, List.filter_append, List.filter_append,
                saveEffects_filter_fitCall, List.length_cons,
                range_succ_map_fitCall]
              simp [Effect.isFitCall]
            · rw [h3, List.filter_append, List.filter_append,
                saveEffects_filter_loadCheckpoint]
              simp [Effect.isLoadCheckpoint]

/-- C2: when a run of `fit_series` completes, the returned list has
exactly one entry per frame that was actually fit, in frame order (one
per `fitCall` effect, and the `fitCall` effects are exactly frames
`0, 1, ..., len-1` in order), and no entry comes from a checkpoint load
(a completed run performs no checkpoint loads: the restart branch, the
only reader of checkpoints, cannot complete). -/
theorem fit_series_returns_exactly_fitted_results {M I R F : Type}
    (loadFn : LoadCall → Img)
    (preprocessFn : F → Option Img → Option Img → M → Except PyExc I)
    (fitFn : M → I → Except PyExc R) (updateFn : M → R → Except PyExc M)
    (model : M) (frames : List F) (s : ℚ) (o : Optics)
    (bg df : Option (String ⊕ Img)) (outdir : Option String)
    (restart : Bool) (rs : List R) (m' : M) (effs : List Effect)
    (h : fit_series loadFn preprocessFn fitFn updateFn model frames s o
        bg df outdir restart = .ok (rs, m', effs)) :
    rs.length = (effs.filter Effect.isFitCall).length
    ∧ effs.filter Effect.isFitCall =
        (List.range frames.length).map Effect.fitCall
    ∧ effs.filter Effect.isLoadCheckpoint = [] := by
  unfold fit_series at h
  cases hbg : resolve_bg bg s o with
  | error e => simp only [hbg] at h; exact Except.noConfusion h
  | ok bgI =>
    simp only [hbg] at h
    obtain ⟨h1, h2, h3⟩ := fit_series_loop_ok_char _ fitFn updateFn restart
      outdir frames 0 model [] (initEffects outdir) rs m' effs h
    rw [initEffects_filter_fitCall] at h2
    rw [initEffects_filter_loadCheckpoint] at h3
    simp only [List.nil_append, Nat.zero_add] at h2
    refine ⟨?_, h2, h3⟩
    rw [h2]
    simp only [List.length_map, List.length_range, List.length_nil] at h1 ⊢
    omega

theorem fit_series_returns_exactly_fitted_results_witness :
    ([11, 31] : List Nat).length =
        (([Effect.fitCall 0, Effect.fitCall 1]).filter
          Effect.isFitCall).length
    ∧ ([Effect.fitCall 0, Effect.fitCall 1]).filter Effect.isFitCall =
        (List.range 2).map Effect.fitCall
    ∧ ([Effect.fitCall 0, Effect.fitCall 1]).filter
        Effect.isLoadCheckpoint = [] :=
  fit_series_returns_exactly_fitted_results oracleLoad oraclePre oracleFit
    oracleUpd 1 [10, 20] 1 0 none none none false [11, 31] 31
    [Effect.fitCall 0, Effect.fitCall 1] rfl

theorem series_preprocess_data_effects_externalRead {M I : Type}
    (loadFn : LoadCall → Img)
    (preprocessFn : Option ImageVal → Option Img → Option (String ⊕ Img) →
      M → I)
    (h5attempt : Except PyExc SeriesH5Data) (fallback : SeriesData)
    (model : M) (s : ℚ) (o : Optics) (bg df : Option (String ⊕ Img)) :
    (series_preprocess_data loadFn preprocessFn h5attempt fallback model
      s o bg df).2.all Effect.isExternalRead = true := by
  unfold series_preprocess_data
  rcases bg with _ | p | v <;>
    [skip; skip; skip] <;>
    cases hls : load_series_data h5attempt fallback with
  | error e => simp [Effect.isExternalRead]
  | ok acc =>
    cases acc with
    | h5 hh =>
      cases hgi : hh.getitem 0 <;>
        simp [hgi, Effect.isExternalRead]
    | seq sd =>
      cases hgi : sd.getitem 0 with
      | error e => simp [hgi, Effect.isExternalRead]
      | ok pr =>
        simp [hgi, Effect.isExternalRead, List.all_eq_true,
          List.forall_mem_map]

/-- If every effect in a list is one of the two external reads, then
the list contains no fit invocation, no result save, and no directory
creation. -/
theorem no_fit_persist_of_all_externalRead (l : List Effect)
    (h : l.all Effect.isExternalRead = true) :
    l.filter Effect.isFitCall = [] ∧ l.filter Effect.isSaveResult = []
      ∧ l.filter Effect.isMkdir = [] := by
  induction l with
  | nil => simp
  | cons e t ih =>
    simp only [List.all_cons, Bool.and_eq_true] at h
    obtain ⟨he, ht⟩ := h
    obtain ⟨ih1, ih2, ih3⟩ := ih ht
    cases e <;>
      simp_all [Effect.isExternalRead, Effect.isFitCall,
        Effect.isSaveResult, Effect.isMkdir]

/-- C9: `series_preprocess_data` and `series_guess` perform only
external reads (the background load and the series-accessor loads):
they never invoke the fit routine, never persist a result, and never
create or write an output directory; `series_guess` performs exactly
the effects of `series_preprocess_data` (its extra step, asking the
model for its predicted image, is a pure model capability). -/
theorem series_helpers_never_fit_never_persist {M I G : Type}
    (loadFn : LoadCall → Img)
    (preprocessFn : Option ImageVal → Option Img → Option (String ⊕ Img) →
      M → I)
    (guessHolo : M → I → G)
    (h5attempt : Except PyExc SeriesH5Data) (fallback : SeriesData)
    (model : M) (s : ℚ) (o : Optics) (bg df : Option (String ⊕ Img)) :
    ((series_preprocess_data loadFn preprocessFn h5attempt fallback model
        s o bg df).2.all Effect.isExternalRead = true)
    ∧ (series_preprocess_data loadFn preprocessFn h5attempt fallback model
        s o bg df).2.filter Effect.isFitCall = []
    ∧ (series_preprocess_data loadFn preprocessFn h5attempt fallback model
        s o bg df).2.filter Effect.isSaveResult = []
    ∧ (series_preprocess_data loadFn preprocessFn h5attempt fallback model
        s o bg df).2.filter Effect.isMkdir = []
    ∧ (series_guess loadFn preprocessFn guessHolo h5attempt fallback model
        s o bg df).2 =
      (series_preprocess_data loadFn preprocessFn h5attempt fallback model
        s o bg df).2 := by
  have hall := series_preprocess_data_effects_externalRead loadFn
    preprocessFn h5attempt fallback model s o bg df
  obtain ⟨h1, h2, h3⟩ := no_fit_persist_of_all_externalRead _ hall
  exact ⟨hall, h1, h2, h3, rfl⟩

theorem iterGetitem_ends_ok {A : Type} (g : Nat → Except PyExc A) :
    ∀ (n fuel k : Nat) (acc : List A),
      (∀ j, j < n → ∃ a, g (k + j) = .ok a) →
      g (k + n) = .error .indexError → n < fuel →
      ∃ l, iterGetitem g fuel k acc = some (.ok l) := by
  intro n
  induction n with
  | zero =>
    intro fuel k acc _ hn hf
    cases fuel with
    | zero => omega
    | succ fuel =>
      rw [Nat.add_zero] at hn
      exact ⟨acc, by simp [iterGetitem, hn]⟩
  | succ n ih =>
    intro fuel k acc hlt hn hf
    cases fuel with
    | zero => omega
    | succ fuel =>
      obtain ⟨a, ha⟩ := hlt 0 (Nat.succ_pos n)
      rw [Nat.add_zero] at ha
      have hlt' : ∀ j, j < n → ∃ b, g (k + 1 + j) = .ok b := by
        intro j hj
        have hj' := hlt (j + 1) (by omega)
        rwa [show k + (j + 1) = k + 1 + j by omega] at hj'
      have hn' : g (k + 1 + n) = .error .indexError := by
        rwa [show k + (n + 1) = k + 1 + n by omega] at hn
      obtain ⟨l, hl⟩ := ih fuel (k + 1) (acc ++ [a]) hlt' hn' (by omega)
      refine ⟨l, ?_⟩
      have hstep : iterGetitem g (fuel + 1) k acc =
          iterGetitem g fuel (k + 1) (acc ++ [a]) := by
        simp [iterGetitem, ha]
      rw [hstep, hl]

theorem iterGetitem_propagates_keyError {A : Type}
    (g : Nat → Except PyExc A) :
    ∀ (n fuel k : Nat) (acc : List A),
      (∀ j, j < n → ∃ a, g (k + j) = .ok a) →
      g (k + n) = .error .keyError → n < fuel →
      iterGetitem g fuel k acc = some (.error .keyError) := by
  intro n
  induction n with
  | zero =>
    intro fuel k acc _ hn hf
    cases fuel with
    | zero => omega
    | succ fuel =>
      rw [Nat.add_zero] at hn
      simp [iterGetitem, hn]
  | succ n ih =>
    intro fuel k acc hlt hn hf
    cases fuel with
    | zero => omega
    | succ fuel =>
      obtain ⟨a, ha⟩ := hlt 0 (Nat.succ_pos n)
      rw [Nat.add_zero] at ha
      have hlt' : ∀ j, j < n → ∃ b, g (k + 1 + j) = .ok b := by
        intro j hj
        have hj' := hlt (j + 1) (by omega)
        rwa [show k + (j + 1) = k + 1 + j by omega] at hj'
      have hn' : g (k + 1 + n) = .error .keyError := by
        rwa [show k + (n + 1) = k + 1 + n by omega] at hn
      have hstep : iterGetitem g (fuel + 1) k acc =
          iterGetitem g fuel (k + 1) (acc ++ [a]) := by
        simp [iterGetitem, ha]
      rw [hstep]
      exact ih fuel (k + 1) (acc ++ [a]) hlt' hn' (by omega)

/-- C10: iterating a series accessor through the `__getitem__` protocol
ends normally exactly the way the sequence variant signals the end —
`IndexError` past the last filename — so that variant's loop returns a
result list; the archive variant raises `KeyError` past its last stored
frame, which the protocol does not treat as end-of-sequence, so the
loop ends with a propagated `KeyError` instead of a normal return. -/
theorem iteration_protocol_of_variants (sd : SeriesData)
    (h5 : SeriesH5Data) (n : Nat)
    (hok : ∀ k, k < n → ∃ v, h5.getitem k = .ok v)
    (hend : h5.getitem n = .error .keyError) :
    (∃ l, iterGetitem sd.getitem (sd.filenames.length + 1) 0 [] =
      some (.ok l))
    ∧ iterGetitem h5.getitem (n + 1) 0 [] = some (.error .keyError) := by
  constructor
  · apply iterGetitem_ends_ok sd.getitem sd.filenames.length
      (sd.filenames.length + 1) 0 []
    · intro j hj
      have hj' : sd.filenames[j]? = some sd.filenames[j] :=
        List.getElem?_eq_getElem hj
      rw [Nat.zero_add]
      exact ⟨(none, [⟨sd.filenames[j], sd.spacing, sd.optics⟩]),
        by simp [SeriesData.getitem, hj']⟩
    · have hnone : sd.filenames[sd.filenames.length]? = none :=
        List.getElem?_eq_none le_rfl
      rw [Nat.zero_add]
      simp [SeriesData.getitem, hnone]
    · omega
  · apply iterGetitem_propagates_keyError h5.getitem n (n + 1) 0 []
    · intro j hj
      rw [Nat.zero_add]
      exact hok j hj
    · rw [Nat.zero_add]
      exact hend
    · omega

theorem iteration_protocol_of_variants_witness :
    (∃ l, iterGetitem (SeriesData.getitem ⟨["a"], 1, 0⟩) 2 0 [] =
      some (.ok l))
    ∧ iterGetitem (SeriesH5Data.getitem ⟨[("0", [])], 1, 0⟩) 2 0 [] =
        some (.error .keyError) :=
  iteration_protocol_of_variants ⟨["a"], 1, 0⟩ ⟨[("0", [])], 1, 0⟩ 1
    (fun k hk => ⟨⟨[], 1, 0⟩, by
      have hk0 : k = 0 := by omega
      subst hk0
      rfl⟩)
    rfl

end FitSeries
